import Mathlib

/-!
Verification of the BLE fitness-telemetry aggregator
(src/projects/git-commitment/main.go) against its specification.

Shallow embedding conventions:
* Go `byte` payloads are `List Nat` (each entry a byte value).
* A decoder (Go notification handler) returns `Option (List DeviceMetric)`:
  `some ms` means the handler returned normally after emitting the metrics
  `ms` (in order); `none` means the handler performed an out-of-bounds
  slice access (a Go runtime panic inside `binary.LittleEndian.Uint16`).
* Channels are modelled by sink identifiers (`Nat`); a send on a channel is
  recorded as a `(sink, metric)` delivery event.
-/

/-- MetricKind from main.go lines 52-59. -/
inductive MetricKind where
  | HeartRate
  | CyclingPower
  | CyclingSpeed
  | CyclingCadence
deriving DecidableEq, Repr

/-- DeviceMetric from main.go lines 61-64: a kind together with an integer
value (Go `int`). -/
structure DeviceMetric where
  kind : MetricKind
  value : Int
deriving DecidableEq, Repr

/-- Go `binary.LittleEndian.Uint16(b)`: reads the first two bytes of the
slice little-endian; panics (here: `none`) when the slice has fewer than
two bytes. -/
def readU16LE : List Nat → Option Nat
  | b0 :: b1 :: _ => some (b0 + 256 * b1)
  | _ => none

/-- Go `int16(u)` conversion of an unsigned 16-bit value: two's-complement
reinterpretation. -/
def toInt16 (n : Nat) : Int :=
  if n % 65536 < 32768 then ((n % 65536 : Nat) : Int)
  else ((n % 65536 : Nat) : Int) - 65536

/-- HeartRateFlagSize from main.go line 128 (bit 0 of the flags byte). -/
def HeartRateFlagSize : Nat := 1

/-- HeartRateFlagContactStatus from main.go line 134: mask `(1<<1)|(1<<2)`
for the two sensor-contact bits. -/
def HeartRateFlagContactStatus : Nat := 2 + 4

/-- Contact-status gate of handleHeartRateMeasurement (main.go lines
151-158): true exactly when the sensor reports contact supported but not
detected, in which case the handler returns without emitting. -/
def hrContactGateBlocks (flag : Nat) : Bool :=
  let contactStatus := (flag &&& HeartRateFlagContactStatus) >>> 1
  (contactStatus &&& 2 != 0) && (contactStatus &&& 1 == 0)

/-- handleHeartRateMeasurement from main.go lines 142-170.
Returns `some ms` when the Go handler returns normally having emitted the
metrics `ms`; returns `none` when the 16-bit read
`binary.LittleEndian.Uint16(buf[1:])` would panic (payload of length 2 with
the 16-bit flag set). -/
def handleHeartRateMeasurement (buf : List Nat) : Option (List DeviceMetric) :=
  if buf.length < 2 then some []
  else
    let flag := buf.getD 0 0
    if hrContactGateBlocks flag then some []
    else if flag &&& HeartRateFlagSize ≠ 0 then
      match readU16LE (buf.drop 1) with
      | some v => some [⟨MetricKind.HeartRate, toInt16 v⟩]
      | none => none
    else
      some [⟨MetricKind.HeartRate, ((buf.getD 1 0 : Nat) : Int)⟩]

/-- CyclingPowerFlagHasPedalPowerBalance, main.go line 173. -/
def CyclingPowerFlagHasPedalPowerBalance : Nat := 1

/-- CyclingPowerFlagHasAccumulatedTorque, main.go line 175. -/
def CyclingPowerFlagHasAccumulatedTorque : Nat := 4

/-- CyclingPowerFlagHasWheelRevolution, main.go line 177. -/
def CyclingPowerFlagHasWheelRevolution : Nat := 16

/-- CyclingPowerFlagHasCrankRevolution, main.go line 178. -/
def CyclingPowerFlagHasCrankRevolution : Nat := 32

/-- Optional-field offset walk of handleCyclingPowerMeasurement (main.go
lines 228-251): starting from 4, adds 1 for pedal power balance, 2 for
accumulated torque, 4+2 for wheel revolution data and 2+2 for crank
revolution data, each when its flag bit is set. -/
def cyclingPowerOffset (flags : Nat) : Nat :=
  let offset := 4
  let offset := if flags &&& CyclingPowerFlagHasPedalPowerBalance ≠ 0 then offset + 1 else offset
  let offset := if flags &&& CyclingPowerFlagHasAccumulatedTorque ≠ 0 then offset + 2 else offset
  let offset := if flags &&& CyclingPowerFlagHasWheelRevolution ≠ 0 then offset + (4 + 2) else offset
  let offset := if flags &&& CyclingPowerFlagHasCrankRevolution ≠ 0 then offset + (2 + 2) else offset
  offset

/-- handleCyclingPowerMeasurement from main.go lines 209-252.
The guard rejects only payloads of length < 2; the power read
`binary.LittleEndian.Uint16(buf[2:])` then needs length ≥ 4, so payloads of
length 2 or 3 panic (`none`). Zero power returns without emitting; nonzero
power emits one CyclingPower metric and then computes the trailing offset
`cyclingPowerOffset flags` (the Go code computes it for future use and
discards it). -/
def handleCyclingPowerMeasurement (buf : List Nat) : Option (List DeviceMetric) :=
  if buf.length < 2 then some []
  else
    match readU16LE buf, readU16LE (buf.drop 2) with
    | some flags, some rawPower =>
      let powerWatts := toInt16 rawPower
      if powerWatts = 0 then some []
      else
        let _offset := cyclingPowerOffset flags
        some [⟨MetricKind.CyclingPower, powerWatts⟩]
    | _, _ => none


/-- MetricSource from main.go lines 66-71, restricted to the state the
claims are about: the growable list of sinks (channels, modelled by `Nat`
identifiers). The `svc`/`ch` handles are transport references with no
bearing on sink bookkeeping; `enableCount` records how many times
`ch.EnableNotifications` has been called on this source. -/
structure MetricSource where
  sinks : List Nat
  enableCount : Nat
deriving DecidableEq, Repr

/-- NewMetricSource from main.go lines 73-82: empty sink list, and no
EnableNotifications call has happened yet. -/
def NewMetricSource : MetricSource := ⟨[], 0⟩

/-- AddSink from main.go lines 91-99: append the sink, and call
EnableNotifications exactly when the list length just became 1. -/
def AddSink (src : MetricSource) (sink : Nat) : MetricSource :=
  let sinks := src.sinks ++ [sink]
  if sinks.length = 1 then ⟨sinks, src.enableCount + 1⟩
  else ⟨sinks, src.enableCount⟩

/-- emit from main.go lines 120-124: send the metric on every sink channel,
in list order. The result is the sequence of channel sends performed. -/
def emit (src : MetricSource) (m : DeviceMetric) : List (Nat × DeviceMetric) :=
  src.sinks.map (fun sink => (sink, m))

/-- An operation performed on a MetricSource: either an AddSink call or a
notification arriving whose decode emits the metric `m`. -/
inductive SourceOp where
  | add (sink : Nat)
  | emit (m : DeviceMetric)
deriving DecidableEq, Repr

/-- Run a sequence of operations on a MetricSource, collecting every
delivery (channel send) performed, in order. -/
def runOps : MetricSource → List SourceOp → MetricSource × List (Nat × DeviceMetric)
  | src, [] => (src, [])
  | src, SourceOp.add s :: rest => runOps (AddSink src s) rest
  | src, SourceOp.emit m :: rest =>
    let p := runOps src rest
    (p.1, emit src m ++ p.2)

/-- The sinks registered by a sequence of operations, in registration
order. -/
def addedSinks : List SourceOp → List Nat
  | [] => []
  | SourceOp.add s :: rest => s :: addedSinks rest
  | SourceOp.emit _ :: rest => addedSinks rest

/-- A scan callback result (Go bluetooth.ScanResult), restricted to what
scanDevices inspects for control flow: the device address and the service
UUIDs it advertises (`HasServiceUUID` is membership). Display-only fields
(local name, RSSI) are omitted. Addresses and UUIDs are numbers. -/
structure ScanResult where
  addr : Nat
  services : List Nat
deriving DecidableEq, Repr

/-- KnownServiceUUIDs from main.go lines 13-20: Cycling Speed and Cadence
(0x1816), Cycling Power (0x1818), Heart Rate (0x180D). -/
def KnownServiceUUIDs : List Nat := [0x1816, 0x1818, 0x180D]

/-- KnownServiceNames from main.go lines 40-44: only Cycling Power and
Heart Rate have entries; a missing entry yields the Go zero value "". -/
def KnownServiceNames (uuid : Nat) : String :=
  if uuid = 0x1818 then "Cycling Power"
  else if uuid = 0x180D then "Heart Rate"
  else ""

/-- Matched service names computed by the scan callback (main.go lines
272-279): for each known service UUID the result advertises, the display
name from KnownServiceNames. -/
def serviceNamesFor (r : ScanResult) : List String :=
  KnownServiceUUIDs.filterMap (fun s =>
    if s ∈ r.services then some (KnownServiceNames s) else none)

/-- One printed line of scan output: the reported address and the matched
service names. -/
structure ScanReport where
  addr : Nat
  names : List String
deriving DecidableEq, Repr

/-- The onScanResult loop of scanDevices (main.go lines 263-292), threaded
over a list of scan results: `seen` is the addrsChecked set. A result whose
address was already seen is skipped; otherwise the address is recorded
first, and a report is printed only when at least one known service name
matched. Returns the final seen set and the reports in order. -/
def scanRun : List Nat → List ScanResult → List Nat × List ScanReport
  | seen, [] => (seen, [])
  | seen, r :: rest =>
    if r.addr ∈ seen then scanRun seen rest
    else
      let seen' := r.addr :: seen
      let names := serviceNamesFor r
      let p := scanRun seen' rest
      if names.isEmpty then p
      else (p.1, ⟨r.addr, names⟩ :: p.2)


/-! Helper lemmas about the MetricSource operation traces. -/

theorem AddSink_sinks (src : MetricSource) (s : Nat) :
    (AddSink src s).sinks = src.sinks ++ [s] := by
  simp only [AddSink]
  split <;> rfl

theorem AddSink_enableCount_of_empty (src : MetricSource) (s : Nat)
    (h : src.sinks = []) : (AddSink src s).enableCount = src.enableCount + 1 := by
  simp [AddSink, h]

theorem AddSink_enableCount_of_nonempty (src : MetricSource) (s : Nat)
    (h : src.sinks ≠ []) : (AddSink src s).enableCount = src.enableCount := by
  simp [AddSink, h]

theorem runOps_append (l1 l2 : List SourceOp) (src : MetricSource) :
    runOps src (l1 ++ l2) =
      ((runOps (runOps src l1).1 l2).1,
       (runOps src l1).2 ++ (runOps (runOps src l1).1 l2).2) := by
  induction l1 generalizing src with
  | nil => simp [runOps]
  | cons op rest ih =>
    cases op with
    | add s => simp [runOps, ih]
    | emit m => simp [runOps, ih]

theorem runOps_sinks (l : List SourceOp) (src : MetricSource) :
    (runOps src l).1.sinks = src.sinks ++ addedSinks l := by
  induction l generalizing src with
  | nil => simp [runOps, addedSinks]
  | cons op rest ih =>
    cases op with
    | add s => simp [runOps, addedSinks, ih, AddSink_sinks]
    | emit m => simp [runOps, addedSinks, ih]

theorem foldl_AddSink_stable (l : List Nat) (st : MetricSource) (h : st.sinks ≠ []) :
    (List.foldl AddSink st l).enableCount = st.enableCount ∧
      (List.foldl AddSink st l).sinks ≠ [] := by
  induction l generalizing st with
  | nil => exact ⟨rfl, h⟩
  | cons s rest ih =>
    have hne : (AddSink st s).sinks ≠ [] := by simp [AddSink_sinks]
    have hec := AddSink_enableCount_of_nonempty st s h
    simpa [List.foldl_cons, hec] using ih (AddSink st s) hne

/-! Helper lemmas about the scan loop. -/

theorem scanRun_no_report_of_seen (rs : List ScanResult) (seen : List Nat) (a : Nat)
    (h : a ∈ seen) : ∀ rep ∈ (scanRun seen rs).2, rep.addr ≠ a := by
  induction rs generalizing seen with
  | nil => simp [scanRun]
  | cons r rest ih =>
    intro rep hrep
    by_cases hseen : r.addr ∈ seen
    · exact ih seen h rep (by simpa [scanRun, hseen] using hrep)
    · have hmem : a ∈ r.addr :: seen := List.mem_cons_of_mem _ h
      by_cases hnames : (serviceNamesFor r).isEmpty
      · exact ih _ hmem rep (by simpa [scanRun, hseen, hnames] using hrep)
      · have hrep' := hrep
        simp only [scanRun, if_neg hseen, if_neg hnames, List.mem_cons] at hrep'
        rcases hrep' with h1 | h2
        · intro hcontra
          have hra : r.addr = a := by
            rw [h1] at hcontra
            simpa using hcontra
          exact hseen (show r.addr ∈ seen by rw [hra]; exact h)
        · exact ih _ hmem rep h2

theorem scanRun_report_addr_mem (rs : List ScanResult) (seen : List Nat) :
    ∀ rep ∈ (scanRun seen rs).2, rep.addr ∈ rs.map (fun r => r.addr) := by
  induction rs generalizing seen with
  | nil => simp [scanRun]
  | cons r rest ih =>
    intro rep hrep
    by_cases hseen : r.addr ∈ seen
    · have := ih seen rep (by simpa [scanRun, hseen] using hrep)
      simp [this]
    · by_cases hnames : (serviceNamesFor r).isEmpty
      · have := ih _ rep (by simpa [scanRun, hseen, hnames] using hrep)
        simp [this]
      · have hrep' := hrep
        simp only [scanRun, if_neg hseen, if_neg hnames, List.mem_cons] at hrep'
        rcases hrep' with h1 | h2
        · simp [h1]
        · have := ih _ rep h2
          simp [this]

theorem scanRun_countP_le (rs : List ScanResult) (seen : List Nat) (a : Nat) :
    (scanRun seen rs).2.countP (fun rep => rep.addr == a) ≤ 1 := by
  induction rs generalizing seen with
  | nil => simp [scanRun]
  | cons r rest ih =>
    by_cases hseen : r.addr ∈ seen
    · simpa [scanRun, hseen] using ih seen
    · by_cases hnames : (serviceNamesFor r).isEmpty
      · simpa [scanRun, hseen, hnames] using ih (r.addr :: seen)
      · simp only [scanRun, if_neg hseen, if_neg hnames, List.countP_cons]
        by_cases ha : r.addr = a
        · have hnone := scanRun_no_report_of_seen rest (r.addr :: seen) a
            (by simp [ha])
          have hzero : (scanRun (r.addr :: seen) rest).2.countP
              (fun rep => rep.addr == a) = 0 := by
            rw [List.countP_eq_zero]
            intro rep hrep
            simpa using hnone rep hrep
          rw [hzero]
          split <;> simp
        · simpa [ha] using ih (r.addr :: seen)

theorem scanRun_append (l1 l2 : List ScanResult) (seen : List Nat) :
    scanRun seen (l1 ++ l2) =
      ((scanRun (scanRun seen l1).1 l2).1,
       (scanRun seen l1).2 ++ (scanRun (scanRun seen l1).1 l2).2) := by
  induction l1 generalizing seen with
  | nil => simp [scanRun]
  | cons r rest ih =>
    by_cases hseen : r.addr ∈ seen
    · simp [scanRun, hseen, ih]
    · by_cases hnames : (serviceNamesFor r).isEmpty
      · simp [scanRun, hseen, hnames, ih]
      · simp [scanRun, hseen, hnames, ih]

theorem scanRun_seen_mem (rs : List ScanResult) (seen : List Nat) (a : Nat)
    (h : a ∈ (scanRun seen rs).1) : a ∈ seen ∨ a ∈ rs.map (fun r => r.addr) := by
  induction rs generalizing seen with
  | nil => exact Or.inl (by simpa [scanRun] using h)
  | cons r rest ih =>
    by_cases hseen : r.addr ∈ seen
    · rcases ih seen (by simpa [scanRun, hseen] using h) with h1 | h2
      · exact Or.inl h1
      · exact Or.inr (by simp [h2])
    · have h' : a ∈ (scanRun (r.addr :: seen) rest).1 := by
        by_cases hnames : (serviceNamesFor r).isEmpty
        · simpa [scanRun, hseen, hnames] using h
        · simpa [scanRun, hseen, hnames] using h
      rcases ih (r.addr :: seen) h' with h1 | h2
      · rcases List.mem_cons.mp h1 with h3 | h4
        · exact Or.inr (by simp [h3])
        · exact Or.inl h4
      · exact Or.inr (by simp [h2])

/-! Claim theorems. -/

/-- C1 counterexample. The claim says the payload [0x06, 0x50] has contact
status supported-but-not-detected and yields no metric. In the code, flags
0x06 sets bits 1 and 2, so the 2-bit contact field is 11 =
supported-and-detected: the gate does not block, and the decoder emits
HeartRate(0x50 = 80). -/
theorem hr_contact_c1_counterexample :
    hrContactGateBlocks 0x06 = false ∧
    handleHeartRateMeasurement [0x06, 0x50] = some [⟨MetricKind.HeartRate, 80⟩] ∧
    handleHeartRateMeasurement [0x06, 0x50] ≠ some [] := by decide

/-- C1 amended: [0x06, 0x50] has contact status supported-and-detected and
yields HeartRate(80); the flags byte encoding supported-but-not-detected
(contact field 10) is 0x04, and [0x04, 0x50] yields no metric. -/
theorem hr_contact_c1_amended :
    handleHeartRateMeasurement [0x06, 0x50] = some [⟨MetricKind.HeartRate, 80⟩] ∧
    hrContactGateBlocks 0x04 = true ∧
    handleHeartRateMeasurement [0x04, 0x50] = some [] := by decide

/-- C2 counterexample. The claim says [0x07, 0x50] yields HeartRate(80).
Flags 0x07 sets bit 0, selecting the 16-bit encoding, so the decoder reads
two bytes starting at byte 1; the payload has only one byte there, and the
Go code panics in binary.LittleEndian.Uint16 (modelled as none) instead of
emitting anything. -/
theorem hr_c2_counterexample :
    handleHeartRateMeasurement [0x07, 0x50] = none ∧
    handleHeartRateMeasurement [0x07, 0x50] ≠ some [⟨MetricKind.HeartRate, 80⟩] := by decide

/-- C2 amended: for flags 0x07 (16-bit value, contact supported and
detected — the contact gate indeed does not block) the payload needs a
second value byte; [0x07, 0x50, 0x00] yields HeartRate(0x0050 = 80) via
the little-endian 16-bit path. -/
theorem hr_c2_amended :
    hrContactGateBlocks 0x07 = false ∧
    handleHeartRateMeasurement [0x07, 0x50, 0x00] = some [⟨MetricKind.HeartRate, 80⟩] := by decide

/-- C3: heart-rate payloads shorter than 2 bytes are dropped silently, as
claimed. But the cycling-power guard also only rejects lengths < 2 while
the fixed layout (2 flag bytes + 2 power bytes) needs 4: payloads of
length 2 or 3 reach binary.LittleEndian.Uint16(buf[2:]) and panic
(modelled as none) — the code violates the claim for those lengths. -/
theorem short_payload_drop :
    handleHeartRateMeasurement [] = some [] ∧
    handleHeartRateMeasurement [0x06] = some [] ∧
    handleCyclingPowerMeasurement [] = some [] ∧
    handleCyclingPowerMeasurement [0x00] = some [] ∧
    handleCyclingPowerMeasurement [0x00, 0x00] = none ∧
    handleCyclingPowerMeasurement [0x00, 0x00, 0x00] = none := by decide

/-- C4: for every cycling-power payload of at least 4 bytes (written as an
explicit 4-byte prefix plus arbitrary rest), the decoder emits nothing
when the little-endian signed 16-bit power at bytes 2-3 is zero, and emits
exactly one CyclingPower metric with that value otherwise; in particular
[0,0,0,0] yields no metric and [0,0,0x64,0] yields CyclingPower(100). -/
theorem cycling_power_decode (b0 b1 b2 b3 : Nat) (rest : List Nat) :
    (handleCyclingPowerMeasurement (b0 :: b1 :: b2 :: b3 :: rest) =
      if toInt16 (b2 + 256 * b3) = 0 then some []
      else some [⟨MetricKind.CyclingPower, toInt16 (b2 + 256 * b3)⟩]) ∧
    handleCyclingPowerMeasurement [0x00, 0x00, 0x00, 0x00] = some [] ∧
    handleCyclingPowerMeasurement [0x00, 0x00, 0x64, 0x00] =
      some [⟨MetricKind.CyclingPower, 100⟩] := by
  refine ⟨?_, by decide, by decide⟩
  simp only [handleCyclingPowerMeasurement, readU16LE, List.drop]
  rw [if_neg (by simp)]

/-- C5 counterexample. The claim covers every payload passing the length
gate (≥ 2 bytes) and the contact gate, and says that with bit 0 set the
emitted value is bytes 1-2 as little-endian i16. The payload [0x01, 0x48]
passes both gates (contact field 00 = unsupported) and has bit 0 set, but
there is no byte 2: the Go code panics in the 16-bit read (modelled as
none) and emits nothing. -/
theorem hr_value_c5_counterexample :
    hrContactGateBlocks 0x01 = false ∧
    (0x01 : Nat) &&& HeartRateFlagSize ≠ 0 ∧
    handleHeartRateMeasurement [0x01, 0x48] = none := by decide

/-- C5 amended: for every heart-rate payload that passes the length and
contact-status gates and is long enough for its selected encoding, bit 0
clear gives the u8 value at byte 1 and bit 0 set gives the little-endian
signed 16-bit value at bytes 1-2; in particular [0x00, 0x48] yields
HeartRate(72) and [0x01, 0x48, 0x00] yields HeartRate(72). -/
theorem hr_value_decoding :
    (∀ (b0 b1 : Nat) (rest : List Nat), hrContactGateBlocks b0 = false →
      b0 &&& HeartRateFlagSize = 0 →
      handleHeartRateMeasurement (b0 :: b1 :: rest) =
        some [⟨MetricKind.HeartRate, (b1 : Int)⟩]) ∧
    (∀ (b0 b1 b2 : Nat) (rest : List Nat), hrContactGateBlocks b0 = false →
      b0 &&& HeartRateFlagSize ≠ 0 →
      handleHeartRateMeasurement (b0 :: b1 :: b2 :: rest) =
        some [⟨MetricKind.HeartRate, toInt16 (b1 + 256 * b2)⟩]) ∧
    handleHeartRateMeasurement [0x00, 0x48] = some [⟨MetricKind.HeartRate, 72⟩] ∧
    handleHeartRateMeasurement [0x01, 0x48, 0x00] = some [⟨MetricKind.HeartRate, 72⟩] := by
  refine ⟨?_, ?_, by decide, by decide⟩
  · intro b0 b1 rest hGate h8
    simp [handleHeartRateMeasurement, hGate, h8]
  · intro b0 b1 b2 rest hGate h16
    simp [handleHeartRateMeasurement, readU16LE, hGate, h16]

/-- Witness for hr_value_decoding at flags byte 0 and value byte 72. -/
theorem hr_value_decoding_witness :
    hrContactGateBlocks 0 = false ∧ (0 : Nat) &&& HeartRateFlagSize = 0 ∧
    handleHeartRateMeasurement [0, 72] = some [⟨MetricKind.HeartRate, (72 : Int)⟩] :=
  ⟨by decide, by decide, hr_value_decoding.1 0 72 [] (by decide) (by decide)⟩

/-- C6: the optional-field walk, as a function of the 16-bit flags value,
adds 1 for pedal power balance, 2 for accumulated torque, 6 for wheel
revolution data and 4 for crank revolution data on top of the fixed 4-byte
prefix; with the pedal-power-balance and wheel-revolution bits set and the
other offset-relevant bits clear it equals 4 + 1 + 6 = 11, independently
of every payload byte (the walk never reads the payload). -/
theorem cycling_power_offset_walk :
    (∀ flags : Nat, cyclingPowerOffset flags =
        4 + (if flags &&& CyclingPowerFlagHasPedalPowerBalance ≠ 0 then 1 else 0)
          + (if flags &&& CyclingPowerFlagHasAccumulatedTorque ≠ 0 then 2 else 0)
          + (if flags &&& CyclingPowerFlagHasWheelRevolution ≠ 0 then 6 else 0)
          + (if flags &&& CyclingPowerFlagHasCrankRevolution ≠ 0 then 4 else 0)) ∧
    (∀ flags : Nat, flags &&& CyclingPowerFlagHasPedalPowerBalance ≠ 0 →
      flags &&& CyclingPowerFlagHasWheelRevolution ≠ 0 →
      flags &&& CyclingPowerFlagHasAccumulatedTorque = 0 →
      flags &&& CyclingPowerFlagHasCrankRevolution = 0 →
      cyclingPowerOffset flags = 11) := by
  constructor
  · intro flags
    simp only [cyclingPowerOffset]
    split_ifs <;> omega
  · intro flags h1 h2 h3 h4
    simp [cyclingPowerOffset, h1, h2, h3, h4]

/-- Witness for cycling_power_offset_walk at flags 0x11 (bits 0 and 4). -/
theorem cycling_power_offset_walk_witness :
    ((0x11 : Nat) &&& CyclingPowerFlagHasPedalPowerBalance ≠ 0) ∧
    ((0x11 : Nat) &&& CyclingPowerFlagHasWheelRevolution ≠ 0) ∧
    ((0x11 : Nat) &&& CyclingPowerFlagHasAccumulatedTorque = 0) ∧
    ((0x11 : Nat) &&& CyclingPowerFlagHasCrankRevolution = 0) ∧
    cyclingPowerOffset 0x11 = 11 :=
  ⟨by decide, by decide, by decide, by decide,
    cycling_power_offset_walk.2 0x11 (by decide) (by decide) (by decide) (by decide)⟩

/-- C7: in every operation trace from a fresh MetricSource, an emit
delivers the metric to exactly the sinks registered at that moment, in
registration order (the middle delivery segment is the map over the
then-current sink list, which equals the sinks added before the emit);
sinks added later contribute nothing to that segment, and when at least
one sink is registered the segment is nonempty. -/
theorem emit_fanout (pre post : List SourceOp) (m : DeviceMetric) :
    ((runOps NewMetricSource (pre ++ SourceOp.emit m :: post)).2 =
        (runOps NewMetricSource pre).2
        ++ (runOps NewMetricSource pre).1.sinks.map (fun s => (s, m))
        ++ (runOps (runOps NewMetricSource pre).1 post).2) ∧
    (runOps NewMetricSource pre).1.sinks = addedSinks pre ∧
    ((runOps NewMetricSource pre).1.sinks ≠ [] →
      (runOps NewMetricSource pre).1.sinks.map (fun s => (s, m)) ≠ []) := by
  refine ⟨?_, ?_, ?_⟩
  · rw [runOps_append]
    simp [runOps, emit, List.append_assoc]
  · simpa [NewMetricSource] using runOps_sinks pre NewMetricSource
  · intro h
    simpa using h

/-- Witness for emit_fanout: one sink added before the emit, one after. -/
theorem emit_fanout_witness :
    (runOps NewMetricSource [SourceOp.add 5]).1.sinks ≠ [] ∧
    (runOps NewMetricSource [SourceOp.add 5]).1.sinks.map
      (fun s => (s, (⟨MetricKind.HeartRate, 80⟩ : DeviceMetric))) ≠ [] :=
  ⟨by decide,
    (emit_fanout [SourceOp.add 5] [SourceOp.add 7] ⟨MetricKind.HeartRate, 80⟩).2.2 (by decide)⟩

/-- C8: from a fresh MetricSource, any sequence of AddSink calls installs
the notification subscription exactly once — zero EnableNotifications
calls for the empty sequence and exactly one otherwise; the very first
AddSink (transition from zero to one sinks) subscribes, and an AddSink on
a source that already has sinks never re-subscribes. -/
theorem addSink_subscribe_once :
    (∀ l : List Nat, (List.foldl AddSink NewMetricSource l).enableCount =
        if l.isEmpty then 0 else 1) ∧
    (∀ s : Nat, (AddSink NewMetricSource s).enableCount = 1) ∧
    (∀ (st : MetricSource) (s : Nat), st.sinks ≠ [] →
      (AddSink st s).enableCount = st.enableCount) := by
  refine ⟨?_, ?_, AddSink_enableCount_of_nonempty⟩
  · intro l
    cases l with
    | nil => rfl
    | cons s rest =>
      have h1 : (AddSink NewMetricSource s).enableCount = 1 := by
        simpa [NewMetricSource] using AddSink_enableCount_of_empty NewMetricSource s rfl
      have hne : (AddSink NewMetricSource s).sinks ≠ [] := by
        simp [AddSink_sinks]
      have := (foldl_AddSink_stable rest (AddSink NewMetricSource s) hne).1
      simp [List.foldl_cons, this, h1]
  · intro s
    simpa [NewMetricSource] using AddSink_enableCount_of_empty NewMetricSource s rfl

/-- Witness for addSink_subscribe_once: a second AddSink on a source that
already holds one sink leaves the EnableNotifications count unchanged. -/
theorem addSink_subscribe_once_witness :
    (AddSink NewMetricSource 1).sinks ≠ [] ∧
    (AddSink (AddSink NewMetricSource 1) 2).enableCount =
      (AddSink NewMetricSource 1).enableCount :=
  ⟨by decide, addSink_subscribe_once.2.2 (AddSink NewMetricSource 1) 2 (by decide)⟩

/-- C9: over any sequence of scan results processed from an empty seen
set, each device address is reported at most once. -/
theorem scan_dedup (rs : List ScanResult) (a : Nat) :
    (scanRun [] rs).2.countP (fun rep => rep.addr == a) ≤ 1 :=
  scanRun_countP_le rs [] a

/-- C10: an address is recorded as seen on its first scan result even when
that result matches no known service; therefore, if the first result for
address `a` advertises no known service, no report for `a` ever appears,
even when later results for `a` do advertise a known service. -/
theorem scan_first_unmatched_blocks (pre : List ScanResult) (r : ScanResult)
    (post : List ScanResult) (a : Nat)
    (hpre : ∀ x ∈ pre, x.addr ≠ a) (hr : r.addr = a)
    (hnames : serviceNamesFor r = []) :
    ∀ rep ∈ (scanRun [] (pre ++ r :: post)).2, rep.addr ≠ a := by
  intro rep hrep
  rw [scanRun_append] at hrep
  rcases List.mem_append.mp hrep with h1 | h2
  · have := scanRun_report_addr_mem pre [] rep h1
    rcases List.mem_map.mp this with ⟨x, hx, hxa⟩
    rw [← hxa]
    exact hpre x hx
  · have hnotin : r.addr ∉ (scanRun [] pre).1 := by
      intro hin
      rcases scanRun_seen_mem pre [] r.addr hin with h3 | h4
      · simp at h3
      · rcases List.mem_map.mp h4 with ⟨x, hx, hxa⟩
        exact hpre x hx (by rw [hxa, hr])
    have hempty : (serviceNamesFor r).isEmpty = true := by
      rw [hnames]; rfl
    have h2' : rep ∈ (scanRun (r.addr :: (scanRun [] pre).1) post).2 := by
      simpa [scanRun, hnotin, hempty] using h2
    exact scanRun_no_report_of_seen post (r.addr :: (scanRun [] pre).1) a
      (by rw [hr]; exact List.mem_cons_self _ _) rep h2'

/-- Witness for scan_first_unmatched_blocks: address 9 first appears with
no services, then reappears advertising Heart Rate; it is never
reported. -/
theorem scan_first_unmatched_blocks_witness :
    (∀ x ∈ ([] : List ScanResult), x.addr ≠ 9) ∧
    serviceNamesFor ⟨9, []⟩ = [] ∧
    (∀ rep ∈ (scanRun [] ([] ++ (⟨9, []⟩ : ScanResult) ::
        [⟨9, [0x180D]⟩])).2, rep.addr ≠ 9) :=
  ⟨by simp, by decide,
    scan_first_unmatched_blocks [] ⟨9, []⟩ [⟨9, [0x180D]⟩] 9
      (by simp) rfl (by decide)⟩
